import Mathlib

set_option maxRecDepth 10000

/-!
Shallow embedding of the texture-core logic of `EVR_texture_editor.py`
(EchoVR Texture Editor): DDS header parsing and synthesis, the ASTC
block-size search helpers, and the PCVR/Quest replacement staging steps.

Files are modelled as lists of byte values (`List Nat`, each entry < 256
where the source writes real bytes).  External subprocesses (astcenc,
texconv) are modelled as oracle functions passed in as parameters; all
pure logic (header layout, byte arithmetic, ordering of candidate
attempts, cache updates, staging decisions) is translated directly from
the Python source.
-/

/-- Little-endian 4-byte encoding of a 32-bit value, as produced by
Python `struct.pack("<I", n)`. -/
def u32le (n : Nat) : List Nat :=
  [n % 256, n / 256 % 256, n / 65536 % 256, n / 16777216 % 256]

/-- Little-endian read of 4 bytes at offset `off`, as done by
`struct.unpack("<I", buf[off:off+4])`. -/
def readU32 (l : List Nat) (off : Nat) : Nat :=
  l.getD off 0 + l.getD (off + 1) 0 * 256 + l.getD (off + 2) 0 * 65536 +
    l.getD (off + 3) 0 * 16777216

/-- Value reassembled from the four little-endian bytes of `n`; equals `n`
whenever `n` fits in 32 bits. -/
def dec32 (n : Nat) : Nat :=
  n % 256 + n / 256 % 256 * 256 + n / 65536 % 256 * 65536 +
    n / 16777216 % 256 * 16777216

theorem dec32_eq_self (n : Nat) (hn : n < 4294967296) : dec32 n = n := by
  unfold dec32
  omega

/-- Result record of `DDSHandler.get_dds_info` (the dict it returns). -/
structure DDSInfo where
  width : Nat
  height : Nat
  mipmaps : Nat
  format : String
  file_size : Nat
  format_code : Option Nat
  is_problematic : Bool
deriving DecidableEq, Repr

/-- The closed `DDSHandler.DXGI_FORMAT` code table with its
`f"DXGI Format {code}"` fallback. -/
def DXGI_FORMAT_name (code : Nat) : String :=
  if code = 0 then "DXGI_FORMAT_UNKNOWN"
  else if code = 71 then "DXGI_FORMAT_BC1_UNORM"
  else if code = 77 then "DXGI_FORMAT_BC3_UNORM"
  else if code = 80 then "DXGI_FORMAT_BC4_UNORM"
  else if code = 83 then "DXGI_FORMAT_BC5_UNORM"
  else "DXGI Format " ++ toString code

/-- Embedding of `DDSHandler.get_dds_info`: magic check, 124-byte header
read at fixed offsets, FourCC dispatch, optional 20-byte DX10 extension
block, problematic-code denylist `[26, 72, 78]`. -/
def get_dds_info (file : List Nat) : Option DDSInfo :=
  if file.take 4 ≠ [68, 68, 83, 32] then none
  else
    let header := (file.drop 4).take 124
    if header.length < 124 then none
    else
      let height := readU32 header 8
      let width := readU32 header 12
      let mipmap_count := readU32 header 24
      let pixel_format_flags := readU32 header 76
      let four_cc := (header.drop 80).take 4
      if four_cc = [68, 88, 84, 49] then
        some ⟨width, height, mipmap_count, "BC1/DXT1", file.length, none, false⟩
      else if four_cc = [68, 88, 84, 51] then
        some ⟨width, height, mipmap_count, "BC2/DXT3", file.length, none, false⟩
      else if four_cc = [68, 88, 84, 53] then
        some ⟨width, height, mipmap_count, "BC3/DXT5", file.length, none, false⟩
      else if four_cc = [68, 88, 49, 48] then
        let extended_header := (file.drop 128).take 20
        if 20 ≤ extended_header.length then
          let format_code := readU32 extended_header 0
          some ⟨width, height, mipmap_count, DXGI_FORMAT_name format_code,
                file.length, some format_code,
                ([26, 72, 78] : List Nat).contains format_code⟩
        else
          some ⟨width, height, mipmap_count, "Unknown", file.length, none, false⟩
      else if pixel_format_flags.testBit 6 then
        some ⟨width, height, mipmap_count, "RGB", file.length, none, false⟩
      else
        some ⟨width, height, mipmap_count, "Unknown", file.length, none, false⟩

/-- The DDS container synthesized by `TextureLoader.load_with_texconv`
around raw block data: `"DDS "`, the 124-byte header written field for
field, the 20-byte DX10 extension block, then the raw bytes. -/
def synth_dds_file (width height format_code : Nat) (raw_data : List Nat) : List Nat :=
  [68, 68, 83, 32] ++ u32le 124 ++ u32le 0x0002100F ++ u32le height ++ u32le width ++
    u32le 0 ++ u32le 0 ++ u32le 1 ++ List.replicate 44 0 ++
    u32le 32 ++ u32le 4 ++ [68, 88, 49, 48] ++
    u32le 0 ++ u32le 0 ++ u32le 0 ++ u32le 0 ++ u32le 0 ++
    u32le 0x1000 ++ u32le 0 ++ u32le 0 ++ u32le 0 ++ u32le 0 ++
    u32le format_code ++ u32le 3 ++ u32le 0 ++ u32le 1 ++ u32le 0 ++
    raw_data

theorem replicate_44_zero :
    List.replicate 44 (0 : Nat) =
      [0, 0, 0, 0, 0, 0, 0, 0, 0, 0, 0, 0, 0, 0, 0, 0, 0, 0, 0, 0, 0, 0,
       0, 0, 0, 0, 0, 0, 0, 0, 0, 0, 0, 0, 0, 0, 0, 0, 0, 0, 0, 0, 0, 0] := rfl

/-- The synthesized container written out as one explicit byte chain
(helper normal form for evaluating the parser on it). -/
def synth_dds_flat (w h fc : Nat) (raw : List Nat) : List Nat :=
  68 :: 68 :: 83 :: 32 ::
  124 :: 0 :: 0 :: 0 ::
  15 :: 16 :: 2 :: 0 ::
  (h % 256) :: (h / 256 % 256) :: (h / 65536 % 256) :: (h / 16777216 % 256) ::
  (w % 256) :: (w / 256 % 256) :: (w / 65536 % 256) :: (w / 16777216 % 256) ::
  0 :: 0 :: 0 :: 0 ::
  0 :: 0 :: 0 :: 0 ::
  1 :: 0 :: 0 :: 0 ::
  0 :: 0 :: 0 :: 0 :: 0 :: 0 :: 0 :: 0 :: 0 :: 0 :: 0 :: 0 :: 0 :: 0 ::
  0 :: 0 :: 0 :: 0 :: 0 :: 0 :: 0 :: 0 :: 0 :: 0 :: 0 :: 0 :: 0 :: 0 ::
  0 :: 0 :: 0 :: 0 :: 0 :: 0 :: 0 :: 0 :: 0 :: 0 :: 0 :: 0 :: 0 :: 0 ::
  0 :: 0 ::
  32 :: 0 :: 0 :: 0 ::
  4 :: 0 :: 0 :: 0 ::
  68 :: 88 :: 49 :: 48 ::
  0 :: 0 :: 0 :: 0 :: 0 :: 0 :: 0 :: 0 :: 0 :: 0 ::
  0 :: 0 :: 0 :: 0 :: 0 :: 0 :: 0 :: 0 :: 0 :: 0 ::
  0 :: 16 :: 0 :: 0 ::
  0 :: 0 :: 0 :: 0 :: 0 :: 0 :: 0 :: 0 ::
  0 :: 0 :: 0 :: 0 :: 0 :: 0 :: 0 :: 0 ::
  (fc % 256) :: (fc / 256 % 256) :: (fc / 65536 % 256) :: (fc / 16777216 % 256) ::
  3 :: 0 :: 0 :: 0 ::
  0 :: 0 :: 0 :: 0 ::
  1 :: 0 :: 0 :: 0 ::
  0 :: 0 :: 0 :: 0 ::
  raw

set_option maxRecDepth 4000 in
/-- The synthesized container flattens to the explicit byte chain. -/
theorem synth_dds_file_flat (w h fc : Nat) (raw : List Nat) :
    synth_dds_file w h fc raw = synth_dds_flat w h fc raw := by
  simp [synth_dds_file, synth_dds_flat, u32le, replicate_44_zero]

set_option maxRecDepth 8000 in
set_option maxHeartbeats 1000000 in
/-- Evaluation of the parser on the flattened synthesized container. -/
theorem get_dds_info_flat (w h fc : Nat) (raw : List Nat) :
    get_dds_info (synth_dds_flat w h fc raw) =
      some ⟨dec32 w, dec32 h, 1, DXGI_FORMAT_name (dec32 fc),
            (synth_dds_flat w h fc raw).length, some (dec32 fc),
            ([26, 72, 78] : List Nat).contains (dec32 fc)⟩ := by
  have c1 : (synth_dds_flat w h fc raw).take 4 = [68, 68, 83, 32] := rfl
  have c2 : (((synth_dds_flat w h fc raw).drop 4).take 124).length = 124 := rfl
  have c3 : ((((synth_dds_flat w h fc raw).drop 4).take 124).drop 80).take 4 =
      [68, 88, 49, 48] := rfl
  have c4 : (((synth_dds_flat w h fc raw).drop 128).take 20).length = 20 := rfl
  have e1 : readU32 (((synth_dds_flat w h fc raw).drop 4).take 124) 8 = dec32 h := rfl
  have e2 : readU32 (((synth_dds_flat w h fc raw).drop 4).take 124) 12 = dec32 w := rfl
  have g0 : (((synth_dds_flat w h fc raw).drop 4).take 124).getD 24 0 = 1 := rfl
  have g1 : (((synth_dds_flat w h fc raw).drop 4).take 124).getD 25 0 = 0 := rfl
  have g2 : (((synth_dds_flat w h fc raw).drop 4).take 124).getD 26 0 = 0 := rfl
  have g3 : (((synth_dds_flat w h fc raw).drop 4).take 124).getD 27 0 = 0 := rfl
  have e3 : readU32 (((synth_dds_flat w h fc raw).drop 4).take 124) 24 = 1 := by
    simp only [readU32, g0, g1, g2, g3]
  have e4 : readU32 (((synth_dds_flat w h fc raw).drop 128).take 20) 0 = dec32 fc := rfl
  rw [get_dds_info]
  simp only [c1, c2, c3, c4, e1, e2, e3, e4]
  norm_num

/-- Parsing the synthesized container recovers the low 32 bits of every
written field. -/
theorem get_dds_info_synth (w h fc : Nat) (raw : List Nat) :
    get_dds_info (synth_dds_file w h fc raw) =
      some ⟨dec32 w, dec32 h, 1, DXGI_FORMAT_name (dec32 fc),
            (synth_dds_file w h fc raw).length, some (dec32 fc),
            ([26, 72, 78] : List Nat).contains (dec32 fc)⟩ := by
  rw [synth_dds_file_flat, get_dds_info_flat]

/-- C5: for every width, height, and extension format code written by the
DDS synthesis routine (124-byte fixed header plus 20-byte DX10 extension
block), parsing the synthesized file with `get_dds_info` recovers exactly
the same width, height, and format code, and a mipmap count of 1. -/
theorem dds_synth_parse_roundtrip (w h fc : Nat) (raw : List Nat)
    (hw : w < 4294967296) (hh : h < 4294967296) (hfc : fc < 4294967296) :
    ∃ info, get_dds_info (synth_dds_file w h fc raw) = some info ∧
      info.width = w ∧ info.height = h ∧ info.format_code = some fc ∧
      info.mipmaps = 1 := by
  refine ⟨_, get_dds_info_synth w h fc raw, ?_, ?_, ?_, rfl⟩
  · exact dec32_eq_self w hw
  · exact dec32_eq_self h hh
  · rw [dec32_eq_self fc hfc]

/-- Witness for C5 at concrete written fields 800 x 600, format code 72. -/
theorem dds_synth_parse_roundtrip_witness :
    ∃ info, get_dds_info (synth_dds_file 800 600 72 [5]) = some info ∧
      info.width = 800 ∧ info.height = 600 ∧ info.format_code = some 72 ∧
      info.mipmaps = 1 :=
  dds_synth_parse_roundtrip 800 600 72 [5] (by decide) (by decide) (by decide)

/-- Decode route chosen by `TextureLoader.load_dds_texture`: problematic
formats go straight to the external converter (`load_with_texconv`);
everything else first attempts the direct image-library open. -/
inductive DecodeRoute where
  | external
  | direct
deriving DecidableEq, Repr

def load_dds_route (info : Option DDSInfo) : DecodeRoute :=
  match info with
  | some i => if i.is_problematic then DecodeRoute.external else DecodeRoute.direct
  | none => DecodeRoute.direct

/-- A concrete 64 x 64 DDS container with FourCC `DXT1` (legacy BC1),
mipmap count 1, pixel-format flags 0x4, and 8 payload bytes. -/
def dxt1_64_file : List Nat :=
  [68, 68, 83, 32] ++ u32le 124 ++ u32le 0x1007 ++ u32le 64 ++ u32le 64 ++
    u32le 8192 ++ u32le 0 ++ u32le 1 ++ List.replicate 44 0 ++
    u32le 32 ++ u32le 4 ++ [68, 88, 84, 49] ++ List.replicate 20 0 ++
    u32le 0x1000 ++ List.replicate 16 0 ++ List.replicate 8 170

set_option maxRecDepth 40000 in
/-- C6: a DXT1 64 x 64 container parses to width 64, height 64, family
BC1/DXT1, not problematic, and routes to the direct image-library path; a
DX10-extended container with denylisted format code 72 (and likewise 26
and 78) parses as problematic and routes to the external-converter path. -/
theorem dxt1_and_problematic_routing :
    get_dds_info dxt1_64_file = some ⟨64, 64, 1, "BC1/DXT1", 136, none, false⟩ ∧
    load_dds_route (get_dds_info dxt1_64_file) = DecodeRoute.direct ∧
    get_dds_info (synth_dds_file 64 64 72 (List.replicate 8 170)) =
      some ⟨64, 64, 1, "DXGI Format 72", 156, some 72, true⟩ ∧
    load_dds_route (get_dds_info (synth_dds_file 64 64 72 (List.replicate 8 170))) =
      DecodeRoute.external ∧
    Option.map DDSInfo.is_problematic (get_dds_info (synth_dds_file 64 64 26 [])) =
      some true ∧
    Option.map DDSInfo.is_problematic (get_dds_info (synth_dds_file 64 64 78 [])) =
      some true := by
  decide

/-- The 3-byte little-endian dimension encoding used by
`ASTCTools.wrap_raw_astc` (`struct.pack("<I", x)[:3]`). -/
def dim3 (x : Nat) : List Nat := [x % 256, x / 256 % 256, x / 65536 % 256]

/-- Embedding of `ASTCTools.wrap_raw_astc`: the 16-byte wrapper header
(little-endian u32 magic 0x5CA1AB13, the single bytes (bw, bh, 1), then
3-byte little-endian encodings of w, h and 1) prepended to the raw
data. -/
def wrap_raw_astc (data : List Nat) (width height block_width block_height : Nat) :
    List Nat :=
  u32le 0x5CA1AB13 ++ [block_width, block_height, 1] ++
    dim3 width ++ dim3 height ++ dim3 1 ++ data

/-- The header-strip step of `ASTCTools.encode_texture`: drop the first 16
bytes when the data is longer than 16 bytes and starts with the magic
prefix `b"\x13\xAB\xA1\x5C"`. -/
def strip_astc_header (astc_data : List Nat) : List Nat :=
  if 16 < astc_data.length ∧ astc_data.take 4 = [19, 171, 161, 92] then
    astc_data.drop 16
  else astc_data

/-- C7: `wrap_raw_astc` produces exactly the 16-byte header (magic,
(bw, bh, 1), three 3-byte little-endian dimension values) followed by the
data unchanged, and on any non-empty data the header-strip step of
`encode_texture` recovers exactly the original data. -/
theorem wrap_astc_header_strip (data : List Nat) (w h bw bh : Nat)
    (hbw : bw < 256) (hbh : bh < 256) (hw : w < 4294967296) (hh : h < 4294967296) :
    (wrap_raw_astc data w h bw bh).take 16 =
      [19, 171, 161, 92, bw, bh, 1,
       w % 256, w / 256 % 256, w / 65536 % 256,
       h % 256, h / 256 % 256, h / 65536 % 256, 1, 0, 0] ∧
    (wrap_raw_astc data w h bw bh).drop 16 = data ∧
    (data ≠ [] → strip_astc_header (wrap_raw_astc data w h bw bh) = data) := by
  refine ⟨rfl, rfl, fun hne => ?_⟩
  have hlen : (wrap_raw_astc data w h bw bh).length = 16 + data.length := by
    simp [wrap_raw_astc, u32le, dim3]
    omega
  have hpos : 0 < data.length := List.length_pos.mpr hne
  rw [strip_astc_header, if_pos ⟨by omega, rfl⟩]
  rfl

/-- Witness for C7 at data [7], dimensions 512 x 256, block size 6 x 5. -/
theorem wrap_astc_header_strip_witness :
    (wrap_raw_astc [7] 512 256 6 5).take 16 =
      [19, 171, 161, 92, 6, 5, 1, 0, 2, 0, 0, 1, 0, 1, 0, 0] ∧
    (wrap_raw_astc [7] 512 256 6 5).drop 16 = [7] ∧
    ([7] ≠ ([] : List Nat) → strip_astc_header (wrap_raw_astc [7] 512 256 6 5) = [7]) :=
  wrap_astc_header_strip [7] 512 256 6 5 (by decide) (by decide) (by decide) (by decide)

/-- Embedding of `ASTCTools.calculate_astc_size`:
`(w + bw - 1) // bw * ((h + bh - 1) // bh) * 16`. -/
def calculate_astc_size (width height block_w block_h : Nat) : Nat :=
  ((width + block_w - 1) / block_w) * ((height + block_h - 1) / block_h) * 16

/-- Rounding-up division over the naturals agrees with the rational
ceiling. -/
theorem add_pred_div_eq_ceil (a b : Nat) (hb : 0 < b) :
    ((a + b - 1) / b : Nat) = ⌈(a : ℚ) / (b : ℚ)⌉₊ := by
  have hbq : (0 : ℚ) < (b : ℚ) := by exact_mod_cast hb
  rcases Nat.eq_zero_or_pos a with ha | ha
  · subst ha
    rw [Nat.zero_add, Nat.div_eq_of_lt (by omega)]
    simp
  · have hq1 : 1 ≤ (a + b - 1) / b := by
      rw [Nat.one_le_div_iff hb]
      omega
    symm
    rw [Nat.ceil_eq_iff (by omega)]
    constructor
    · rw [lt_div_iff hbq]
      have hub : (a + b - 1) / b * b ≤ a + b - 1 := Nat.div_mul_le_self _ _
      have : ((a + b - 1) / b - 1) * b < a := by
        have := Nat.sub_one_mul ((a + b - 1) / b) b
        omega
      exact_mod_cast this
    · rw [div_le_iff hbq]
      have h1 := Nat.div_add_mod (a + b - 1) b
      have h2 := Nat.mod_lt (a + b - 1) hb
      have : a ≤ (a + b - 1) / b * b := by
        have := Nat.mul_comm b ((a + b - 1) / b)
        omega
      exact_mod_cast this

/-- One `DECODE_CACHE` entry: the parameters recorded by
`decode_with_config` on a successful decode. -/
structure CacheCfg where
  width : Nat
  height : Nat
  block_w : Nat
  block_h : Nat
  original_size : Nat
deriving DecidableEq, Repr

/-- The process-wide `DECODE_CACHE` dict, keyed by texture base name;
insertion is modelled by consing (newest binding shadows older ones). -/
abbrev DecodeCache := List (String × CacheCfg)

/-- One entry of the external `texture_mapping.json` name table. -/
structure MapEntry where
  width : Nat
  height : Nat
deriving DecidableEq, Repr

abbrev TextureMapping := List (String × MapEntry)

/-- The suffix-stripping loop of `ASTCTools.find_texture_info`. -/
def suffix_lookup (texture_name : String) (mapping : TextureMapping) :
    List String → Option MapEntry
  | [] => none
  | s :: rest =>
      if texture_name.endsWith s then
        match mapping.lookup (texture_name.dropRight s.length) with
        | some e => some e
        | none => suffix_lookup texture_name mapping rest
      else suffix_lookup texture_name mapping rest

/-- Embedding of `ASTCTools.find_texture_info`: exact name lookup first,
then retry with one of the fixed suffix tokens stripped. -/
def find_texture_info (texture_name : String) (mapping : TextureMapping) :
    Option MapEntry :=
  match mapping.lookup texture_name with
  | some e => some e
  | none =>
      suffix_lookup texture_name mapping
        ["_d", "_n", "_s", "_e", "_a", "_r", "_m", "_h"]

/-- Result of one external block-decoder invocation for a given
(width, height, block_w, block_h) wrapping of the fixed raw file: the
process exit code, and the output file size when the output file
exists. -/
abbrev DecOracle := Nat → Nat → Nat → Nat → Nat × Option Nat

/-- Embedding of `ASTCTools.decode_with_config`: accept when the decoder
exits 0, the output file exists and its size exceeds 1000 bytes; on
acceptance record the parameters (with the raw file size) in the decode
cache under a truthy cache key. -/
def decode_with_config (dec : DecOracle) (cache : DecodeCache) (raw_size : Nat)
    (width height block_w block_h : Nat) (cache_key : String) : Bool × DecodeCache :=
  match dec width height block_w block_h with
  | (0, some file_size) =>
      if 1000 < file_size then
        (true,
         if cache_key ≠ "" then
           (cache_key, ⟨width, height, block_w, block_h, raw_size⟩) :: cache
         else cache)
      else (false, cache)
  | _ => (false, cache)

/-- Acceptance predicate of one candidate attempt: decoder exit code 0,
output file present with more than 1000 bytes. -/
def astc_accepts (dec : DecOracle) (width height block_w block_h : Nat) : Bool :=
  match dec width height block_w block_h with
  | (0, some file_size) => decide (1000 < file_size)
  | _ => false

/-- The fixed ordered candidate list of `ASTCTools.get_common_block_sizes`. -/
def get_common_block_sizes : List (Nat × Nat) :=
  [(4, 4), (8, 8), (6, 6), (5, 5), (10, 10), (12, 12), (5, 4), (6, 5),
   (8, 5), (8, 6), (10, 5), (10, 6), (10, 8)]

/-- The candidate loop of `ASTCTools.decode_with_mapping`: try block sizes
in order, stop at the first accepted one. -/
def try_block_sizes (dec : DecOracle) (raw_size width height : Nat) (key : String) :
    DecodeCache → List (Nat × Nat) → Bool × DecodeCache
  | cache, [] => (false, cache)
  | cache, (bw, bh) :: rest =>
      match decode_with_config dec cache raw_size width height bw bh key with
      | (true, cache2) => (true, cache2)
      | (false, cache2) => try_block_sizes dec raw_size width height key cache2 rest

/-- Embedding of `ASTCTools.decode_with_mapping`: mapping lookup for the
texture base name, then the ordered block-size search. -/
def decode_with_mapping (dec : DecOracle) (cache : DecodeCache) (texture_name : String)
    (mapping : TextureMapping) (raw_size : Nat) : Bool × DecodeCache :=
  match find_texture_info texture_name mapping with
  | none => (false, cache)
  | some info =>
      try_block_sizes dec raw_size info.width info.height texture_name cache
        get_common_block_sizes

theorem decode_with_config_eq (dec : DecOracle) (cache : DecodeCache) (raw_size : Nat)
    (w h bw bh : Nat) (key : String) (hkey : key ≠ "") :
    decode_with_config dec cache raw_size w h bw bh key =
      if astc_accepts dec w h bw bh then
        (true, (key, ⟨w, h, bw, bh, raw_size⟩) :: cache)
      else (false, cache) := by
  unfold decode_with_config astc_accepts
  rcases hdec : dec w h bw bh with ⟨rc, out⟩
  cases rc with
  | zero =>
      cases out with
      | none => simp
      | some fs =>
          by_cases hfs : 1000 < fs
          · simp [hfs, hkey]
          · simp [hfs]
  | succ n => cases out <;> simp

theorem try_block_sizes_eq_find (dec : DecOracle) (raw_size w h : Nat) (key : String)
    (hkey : key ≠ "") :
    ∀ (l : List (Nat × Nat)) (cache : DecodeCache),
    try_block_sizes dec raw_size w h key cache l =
      match l.find? (fun p => astc_accepts dec w h p.1 p.2) with
      | some p => (true, (key, ⟨w, h, p.1, p.2, raw_size⟩) :: cache)
      | none => (false, cache) := by
  intro l
  induction l with
  | nil => intro cache; rfl
  | cons p rest ih =>
      intro cache
      rcases p with ⟨bw, bh⟩
      rw [try_block_sizes, decode_with_config_eq dec cache raw_size w h bw bh key hkey]
      by_cases hacc : astc_accepts dec w h bw bh
      · simp [hacc, List.find?_cons_of_pos]
      · simp only [hacc, if_false, Bool.false_eq_true]
        rw [List.find?_cons_of_neg _ (by simpa using hacc)]
        exact ih cache

/-- C3: with a mapping hit for the texture base name, the mapping-guided
decode phase is exactly a first-match search over the fixed ordered
block-size candidate list, a candidate being accepted iff the external
decoder exits 0 with an output file of more than 1000 bytes; the first
accepted candidate stops the search and records
(width, height, block_w, block_h, original file byte size) in the decode
cache under the texture base name. -/
theorem decode_with_mapping_first_match (dec : DecOracle) (cache : DecodeCache)
    (name : String) (mapping : TextureMapping) (raw_size : Nat) (info : MapEntry)
    (hinfo : find_texture_info name mapping = some info) (hname : name ≠ "") :
    decode_with_mapping dec cache name mapping raw_size =
      match get_common_block_sizes.find?
          (fun p => astc_accepts dec info.width info.height p.1 p.2) with
      | some p => (true, (name, ⟨info.width, info.height, p.1, p.2, raw_size⟩) :: cache)
      | none => (false, cache) := by
  unfold decode_with_mapping
  rw [hinfo]
  exact try_block_sizes_eq_find dec raw_size info.width info.height name hname
    get_common_block_sizes cache

/-- Decoder oracle for the C3 witness: only the 8 x 8 block size decodes
successfully (exit 0, 5000-byte output); everything else fails. -/
def c3_oracle : DecOracle := fun _ _ bw bh =>
  if bw = 8 ∧ bh = 8 then (0, some 5000) else (1, none)

/-- Witness for C3: the first candidate (4, 4) fails, the second (8, 8)
is accepted, the search stops there and caches the parameters. -/
theorem decode_with_mapping_first_match_witness :
    decode_with_mapping c3_oracle [] "tex" [("tex", ⟨512, 256⟩)] 1000 =
      (true, [("tex", ⟨512, 256, 8, 8, 1000⟩)]) := by
  rw [decode_with_mapping_first_match c3_oracle [] "tex" [("tex", ⟨512, 256⟩)] 1000
    ⟨512, 256⟩ rfl (by decide)]
  decide

/-- One named entry of the `configurations` list of
`ASTCTools.brute_force_decode`. -/
structure BFConfig where
  width : Nat
  height : Nat
  block_w : Nat
  block_h : Nat
  desc : String
deriving DecidableEq, Repr

/-- The fixed `configurations` list of `ASTCTools.brute_force_decode`. -/
def configurations : List BFConfig :=
  [⟨2048, 1024, 8, 8, "2Kx1K_8x8"⟩,
   ⟨2048, 1024, 6, 6, "2Kx1K_6x6"⟩,
   ⟨2048, 1024, 4, 4, "2Kx1K_4x4"⟩,
   ⟨1024, 512, 8, 8, "1Kx512_8x8"⟩,
   ⟨1024, 512, 6, 6, "1Kx512_6x6"⟩,
   ⟨1024, 512, 4, 4, "1Kx512_4x4"⟩,
   ⟨2048, 2048, 8, 8, "2K_square_8x8"⟩,
   ⟨1024, 1024, 8, 8, "1K_square_8x8"⟩]

/-- The loop of `ASTCTools.brute_force_decode`: skip configurations whose
expected size differs from the actual file size by more than 100 bytes,
attempt the rest in order via the decoder, stop at the first success. -/
def bf_loop (dec : DecOracle) (name : String) (file_size : Nat) :
    DecodeCache → List BFConfig → Bool × DecodeCache
  | cache, [] => (false, cache)
  | cache, c :: rest =>
      if 100 < ((calculate_astc_size c.width c.height c.block_w c.block_h : ℤ) -
          (file_size : ℤ)).natAbs then
        bf_loop dec name file_size cache rest
      else
        match decode_with_config dec cache file_size c.width c.height c.block_w
            c.block_h name with
        | (true, cache2) => (true, cache2)
        | (false, cache2) => bf_loop dec name file_size cache2 rest

/-- Embedding of `ASTCTools.brute_force_decode`. -/
def brute_force_decode (dec : DecOracle) (cache : DecodeCache) (name : String)
    (file_size : Nat) : Bool × DecodeCache :=
  bf_loop dec name file_size cache configurations

/-- Comparator loop: the same first-success search, but attempting the
external decoder on every configuration of its list, with no size
pre-filter. -/
def attempt_configs (dec : DecOracle) (name : String) (file_size : Nat) :
    DecodeCache → List BFConfig → Bool × DecodeCache
  | cache, [] => (false, cache)
  | cache, c :: rest =>
      match decode_with_config dec cache file_size c.width c.height c.block_w
          c.block_h name with
      | (true, cache2) => (true, cache2)
      | (false, cache2) => attempt_configs dec name file_size cache2 rest

theorem attempt_configs_cons (dec : DecOracle) (name : String) (fs : Nat)
    (cache : DecodeCache) (c : BFConfig) (rest : List BFConfig) :
    attempt_configs dec name fs cache (c :: rest) =
      match decode_with_config dec cache fs c.width c.height c.block_w
          c.block_h name with
      | (true, cache2) => (true, cache2)
      | (false, cache2) => attempt_configs dec name fs cache2 rest := rfl

theorem bf_loop_eq_filter (dec : DecOracle) (name : String) (fs : Nat) :
    ∀ (l : List BFConfig) (cache : DecodeCache),
    bf_loop dec name fs cache l =
      attempt_configs dec name fs cache
        (l.filter fun c =>
          decide (((calculate_astc_size c.width c.height c.block_w c.block_h : ℤ) -
            (fs : ℤ)).natAbs ≤ 100)) := by
  intro l
  induction l with
  | nil => intro cache; rfl
  | cons c rest ih =>
      intro cache
      rw [bf_loop]
      by_cases hc : 100 <
          ((calculate_astc_size c.width c.height c.block_w c.block_h : ℤ) -
            (fs : ℤ)).natAbs
      · rw [if_pos hc, ih, List.filter_cons]
        have : ¬ (((calculate_astc_size c.width c.height c.block_w c.block_h : ℤ) -
            (fs : ℤ)).natAbs ≤ 100) := by omega
        simp [this]
      · rw [if_neg hc, List.filter_cons]
        have hle : ((calculate_astc_size c.width c.height c.block_w c.block_h : ℤ) -
            (fs : ℤ)).natAbs ≤ 100 := by omega
        rw [if_pos (decide_eq_true hle), attempt_configs_cons]
        rcases hdc : decode_with_config dec cache fs c.width c.height c.block_w
            c.block_h name with ⟨ok, cache2⟩
        cases ok
        · exact ih cache2
        · rfl

/-- C8: `calculate_astc_size` computes
ceil(width / block_w) * ceil(height / block_h) * 16, and the brute-force
decode phase attempts a configuration via the external decoder exactly
when the expected size differs from the actual file size by at most 100
bytes (it runs the no-filter search on the filtered configuration
list). -/
theorem astc_size_formula_and_tolerance (w h bw bh : Nat)
    (hw : 0 < w) (hh : 0 < h) (hbw : 0 < bw) (hbh : 0 < bh) :
    calculate_astc_size w h bw bh =
      ⌈(w : ℚ) / (bw : ℚ)⌉₊ * ⌈(h : ℚ) / (bh : ℚ)⌉₊ * 16 ∧
    (∀ (dec : DecOracle) (cache : DecodeCache) (name : String) (fs : Nat),
      brute_force_decode dec cache name fs =
        attempt_configs dec name fs cache
          (configurations.filter fun c =>
            decide (((calculate_astc_size c.width c.height c.block_w c.block_h : ℤ) -
              (fs : ℤ)).natAbs ≤ 100))) := by
  constructor
  · unfold calculate_astc_size
    rw [add_pred_div_eq_ceil w bw hbw, add_pred_div_eq_ceil h bh hbh]
  · intro dec cache name fs
    exact bf_loop_eq_filter dec name fs configurations cache

/-- Witness for C8 at 2048 x 1024 with 8 x 8 blocks and a decoder oracle
that always fails. -/
theorem astc_size_formula_and_tolerance_witness :
    calculate_astc_size 2048 1024 8 8 =
      ⌈(2048 : ℚ) / (8 : ℚ)⌉₊ * ⌈(1024 : ℚ) / (8 : ℚ)⌉₊ * 16 ∧
    (∀ (dec : DecOracle) (cache : DecodeCache) (name : String) (fs : Nat),
      brute_force_decode dec cache name fs =
        attempt_configs dec name fs cache
          (configurations.filter fun c =>
            decide (((calculate_astc_size c.width c.height c.block_w c.block_h : ℤ) -
              (fs : ℤ)).natAbs ≤ 100))) :=
  astc_size_formula_and_tolerance 2048 1024 8 8 (by decide) (by decide) (by decide)
    (by decide)

/-- Embedding of `ASTCTools.pad_to_size`: append zero bytes when the data
is shorter than the target, truncate to the target when longer. -/
def pad_to_size (data : List Nat) (target_size : Nat) : List Nat :=
  if data.length < target_size then
    data ++ List.replicate (target_size - data.length) 0
  else if target_size < data.length then
    data.take target_size
  else data

theorem pad_to_size_length (data : List Nat) (t : Nat) :
    (pad_to_size data t).length = t := by
  unfold pad_to_size
  by_cases h1 : data.length < t
  · rw [if_pos h1]
    simp
    omega
  · rw [if_neg h1]
    by_cases h2 : t < data.length
    · rw [if_pos h2]
      simp
      omega
    · rw [if_neg h2]
      omega

/-- Embedding of `TextureReplacer.hex_edit_file_size` on file content:
when at least 248 bytes are present, bytes [244:248] are overwritten with
the little-endian 32-bit encoding of `new_size` (which must fit in 32
bits for `struct.pack("<I", ...)` not to raise); otherwise the patch
fails. -/
def hex_edit_file_size (data : List Nat) (new_size : Nat) : Option (List Nat) :=
  if 248 ≤ data.length then
    if new_size < 4294967296 then
      some (data.take 244 ++ u32le new_size ++ data.drop 248)
    else none
  else none

/-- C2: on a descriptor of exactly 256 bytes and any 32-bit replacement
size, the patch step succeeds and yields a file of unchanged length that
is byte-identical to the input outside [244:248], where it carries the
little-endian encoding of the new size. -/
theorem hex_edit_patch_exact (desc : List Nat) (n : Nat)
    (hlen : desc.length = 256) (hn : n < 4294967296) :
    ∃ patched, hex_edit_file_size desc n = some patched ∧
      patched.length = 256 ∧
      patched.take 244 = desc.take 244 ∧
      (patched.drop 244).take 4 = u32le n ∧
      patched.drop 248 = desc.drop 248 := by
  refine ⟨desc.take 244 ++ u32le n ++ desc.drop 248, ?_, ?_, ?_, ?_, ?_⟩
  · unfold hex_edit_file_size
    rw [if_pos (by omega), if_pos hn]
  · simp [u32le, hlen]
  · simp [List.take_append_eq_append_take, List.length_take, List.take_take, hlen]
  · simp [List.drop_append_eq_append_drop, List.take_append_eq_append_take,
      List.length_take, List.length_drop, hlen, u32le]
  · simp [List.drop_append_eq_append_drop, List.length_take, List.length_drop,
      hlen, u32le]

/-- Witness for C2 on an all-9 256-byte descriptor and size 12345. -/
theorem hex_edit_patch_exact_witness :
    ∃ patched, hex_edit_file_size (List.replicate 256 9) 12345 = some patched ∧
      patched.length = 256 ∧
      patched.take 244 = (List.replicate 256 9).take 244 ∧
      (patched.drop 244).take 4 = u32le 12345 ∧
      patched.drop 248 = (List.replicate 256 9).drop 248 :=
  hex_edit_patch_exact (List.replicate 256 9) 12345 (by decide) (by decide)

/-- Result of `TextureReplacer.replace_pcvr_texture`: status flag and
message, the bytes staged under the raw-texture input folder, and the
bytes left in the descriptor input folder. -/
structure PCVRResult where
  ok : Bool
  message : String
  stagedTexture : Option (List Nat)
  stagedCorresponding : Option (List Nat)
deriving DecidableEq, Repr

/-- Embedding of `TextureReplacer.replace_pcvr_texture`, abstracted over
the fixed staging folder paths: inputs are the replacement file bytes,
the reported replacement size, and the content of the original texture's
companion descriptor in the extracted output tree (`none` when absent).
The replacement is always copied into the raw-texture staging folder
first; then the descriptor, if present, is copied and size-patched. -/
def replace_pcvr_texture (replacement : List Nat) (replacement_size : Nat)
    (corresponding : Option (List Nat)) : PCVRResult :=
  match corresponding with
  | some corr =>
      match hex_edit_file_size corr replacement_size with
      | some patched =>
          ⟨true,
           "PCVR texture replaced. Size updated to " ++ toString replacement_size ++
             " bytes.",
           some replacement, some patched⟩
      | none => ⟨false, "Failed to update file size", some replacement, some corr⟩
  | none => ⟨false, "Corresponding file not found", some replacement, none⟩

/-- Counterexample to C1 as stated: a 250-byte descriptor (not the
256-byte fixed record size) is still patched, and the PC staging
operation reports success, not a failure result. -/
theorem pcvr_nonstandard_descriptor_patched :
    (List.replicate 250 7).length ≠ 256 ∧
    (replace_pcvr_texture [1, 2, 3] 100 (some (List.replicate 250 7))).ok = true ∧
    (replace_pcvr_texture [1, 2, 3] 100 (some (List.replicate 250 7))).message =
      "PCVR texture replaced. Size updated to 100 bytes." := by decide

theorem hex_edit_too_short (data : List Nat) (n : Nat) (h : data.length < 248) :
    hex_edit_file_size data n = none := by
  unfold hex_edit_file_size
  rw [if_neg (by omega)]

theorem hex_edit_ok (data : List Nat) (n : Nat) (hl : 248 ≤ data.length)
    (hn : n < 4294967296) :
    hex_edit_file_size data n =
      some (data.take 244 ++ u32le n ++ data.drop 248) := by
  unfold hex_edit_file_size
  rw [if_pos hl, if_pos hn]

/-- C1 (amended): the PC staging patch is refused exactly when the copied
descriptor holds fewer than 248 bytes (for a 32-bit replacement size);
descriptors of 248 bytes or more, including lengths other than 256, are
patched and reported as success.  On refusal the operation reports the
failure message and the staged descriptor is the unmodified full copy, so
no partially-written file is left. -/
theorem pcvr_descriptor_gate_amended (repl desc : List Nat) (n : Nat)
    (hn : n < 4294967296) :
    ((replace_pcvr_texture repl n (some desc)).ok = true ↔ 248 ≤ desc.length) ∧
    (desc.length < 248 →
      replace_pcvr_texture repl n (some desc) =
        ⟨false, "Failed to update file size", some repl, some desc⟩) := by
  by_cases hl : 248 ≤ desc.length
  · simp only [replace_pcvr_texture, hex_edit_ok desc n hl hn]
    exact ⟨by simp [hl], fun hlt => absurd hl (by omega)⟩
  · have hlt : desc.length < 248 := by omega
    simp only [replace_pcvr_texture, hex_edit_too_short desc n hlt]
    exact ⟨by simp [hl], fun _ => by simp⟩

/-- Witness for the amended C1 on a 100-byte descriptor. -/
theorem pcvr_descriptor_gate_amended_witness :
    replace_pcvr_texture [1] 5 (some (List.replicate 100 0)) =
      ⟨false, "Failed to update file size", some [1], some (List.replicate 100 0)⟩ :=
  (pcvr_descriptor_gate_amended [1] (List.replicate 100 0) 5 (by decide)).2 (by decide)

/-- Result of one external block-encoder invocation for given
(width, height, block_w, block_h): the encoder output file content on
exit 0, `none` on failure. -/
abbrev EncOracle := Nat → Nat → Nat → Nat → Option (List Nat)

/-- Embedding of `ASTCTools.encode_texture` with the external encoder as
an oracle: on success strip the encoder wrapper header and, when a
truthy target size is given and the raw length differs from it,
pad/truncate to the target. -/
def encode_texture (enc : EncOracle) (width height block_w block_h : Nat)
    (target_size : Option Nat) : Option (List Nat) :=
  match enc width height block_w block_h with
  | none => none
  | some astc_data =>
      let raw_data := strip_astc_header astc_data
      match target_size with
      | some t =>
          if t ≠ 0 ∧ raw_data.length ≠ t then some (pad_to_size raw_data t)
          else some raw_data
      | none => some raw_data

/-- Embedding of `ASTCTools.encode_with_cache`: fail on a cache miss,
otherwise encode with the cached parameters and the cached original size
as target. -/
def encode_with_cache (enc : EncOracle) (cache : DecodeCache)
    (texture_name : String) : Option (List Nat) :=
  match cache.lookup texture_name with
  | none => none
  | some config =>
      encode_texture enc config.width config.height config.block_w config.block_h
        (some config.original_size)

/-- Result of `TextureReplacer.replace_quest_texture`: status flag and
message, the bytes staged under the raw-texture input folder, and the
bytes left in the descriptor input folder. -/
structure QuestResult where
  ok : Bool
  message : String
  stagedTexture : Option (List Nat)
  stagedCorresponding : Option (List Nat)
deriving DecidableEq, Repr

/-- Tail of `TextureReplacer.replace_quest_texture` after a successful
encode: re-pad to the original size when the encoded size differs, copy
into the staging textures folder, then copy and size-patch the companion
descriptor when it exists; when it does not, report success with no
descriptor staged. -/
def stage_quest_encoded (encoded : List Nat) (original_size : Nat)
    (corresponding : Option (List Nat)) : QuestResult :=
  let final := if encoded.length ≠ original_size then pad_to_size encoded original_size
    else encoded
  match corresponding with
  | some corr =>
      match hex_edit_file_size corr final.length with
      | some patched =>
          ⟨true,
           "Quest texture replaced. Size updated to " ++ toString final.length ++
             " bytes.",
           some final, some patched⟩
      | none => ⟨false, "Failed to update file size", some final, some corr⟩
  | none => ⟨true, "Quest texture replaced (no corresponding file)", some final, none⟩

/-- Embedding of `TextureReplacer.replace_quest_texture` (the encoder
binary is assumed found; the encoder itself is the oracle).  `mapping` is
the loaded name table (empty when the mapping file is absent),
`corresponding` the descriptor content from the extracted output tree.  A
decode-cache hit for the base name uses `encode_with_cache`; otherwise a
non-empty mapping is indexed directly, so an absent key raises `KeyError`,
which the enclosing handler reports as the generic Quest-replacement
error. -/
def replace_quest_texture (enc : EncOracle) (texture_name : String)
    (original_size : Nat) (cache : DecodeCache) (mapping : TextureMapping)
    (corresponding : Option (List Nat)) : QuestResult :=
  match cache.lookup texture_name with
  | some _ =>
      match encode_with_cache enc cache texture_name with
      | some encoded => stage_quest_encoded encoded original_size corresponding
      | none => ⟨false, "Failed to encode texture", none, none⟩
  | none =>
      if mapping = [] then ⟨false, "No encoding configuration found", none, none⟩
      else
        match mapping.lookup texture_name with
        | some e =>
            match encode_texture enc e.width e.height 8 8 (some original_size) with
            | some encoded => stage_quest_encoded encoded original_size corresponding
            | none => ⟨false, "Failed to encode texture", none, none⟩
        | none =>
            ⟨false, "Quest replacement error: \x27" ++ texture_name ++ "\x27",
             none, none⟩

/-- Continuation of the Quest staging on an encode result, for stating
which encode parameters each resolution case feeds into the common
staging tail. -/
def quest_encode_result (encodeResult : Option (List Nat)) (original_size : Nat)
    (corresponding : Option (List Nat)) : QuestResult :=
  match encodeResult with
  | some encoded => stage_quest_encoded encoded original_size corresponding
  | none => ⟨false, "Failed to encode texture", none, none⟩

/-- Encoder oracle that always fails. -/
def enc_fail : EncOracle := fun _ _ _ _ => none

/-- Counterexample to C4 as stated: with an empty decode cache and a
non-empty mapping that lacks the texture name, neither source yields
parameters, yet the operation does not report the
NoEncodingConfiguration message (it raises `KeyError` out to the generic
handler). -/
theorem quest_no_config_counterexample :
    (([] : DecodeCache).lookup "tex" = none) ∧
    (([("other", (⟨4, 4⟩ : MapEntry))] : TextureMapping).lookup "tex" = none) ∧
    (replace_quest_texture enc_fail "tex" 64 [] [("other", ⟨4, 4⟩)] none).message ≠
      "No encoding configuration found" ∧
    (replace_quest_texture enc_fail "tex" 64 [] [("other", ⟨4, 4⟩)] none).message =
      "Quest replacement error: \x27tex\x27" := by decide

/-- C4 (amended): encode-parameter resolution prefers a decode-cache hit
for the texture base name (cached parameters, cached original size as
target); with no cache hit and a non-empty mapping the name is looked up
directly in the mapping and used with fixed 8 x 8 blocks and the original
file byte size as target; the NoEncodingConfiguration message is reported
exactly when the cache misses and the whole mapping is empty, while a
cache miss with a non-empty mapping lacking the name ends in the generic
Quest-replacement (KeyError) error. -/
theorem quest_param_resolution_amended (enc : EncOracle) (name : String)
    (original_size : Nat) (cache : DecodeCache) (mapping : TextureMapping)
    (corresponding : Option (List Nat)) :
    (∀ cfg, cache.lookup name = some cfg →
      replace_quest_texture enc name original_size cache mapping corresponding =
        quest_encode_result
          (encode_texture enc cfg.width cfg.height cfg.block_w cfg.block_h
            (some cfg.original_size)) original_size corresponding) ∧
    (cache.lookup name = none → mapping = [] →
      replace_quest_texture enc name original_size cache mapping corresponding =
        ⟨false, "No encoding configuration found", none, none⟩) ∧
    (cache.lookup name = none → ∀ e, mapping.lookup name = some e →
      replace_quest_texture enc name original_size cache mapping corresponding =
        quest_encode_result
          (encode_texture enc e.width e.height 8 8 (some original_size))
          original_size corresponding) ∧
    (cache.lookup name = none → mapping ≠ [] → mapping.lookup name = none →
      replace_quest_texture enc name original_size cache mapping corresponding =
        ⟨false, "Quest replacement error: \x27" ++ name ++ "\x27", none, none⟩) := by
  refine ⟨?_, ?_, ?_, ?_⟩
  · intro cfg hcfg
    simp only [replace_quest_texture, encode_with_cache, hcfg, quest_encode_result]
  · intro h1 h2
    simp only [replace_quest_texture, h1, h2, if_pos]
  · intro h1 e he
    have hne : mapping ≠ [] := by
      intro hE
      rw [hE] at he
      exact absurd he (by simp [List.lookup])
    simp only [replace_quest_texture, h1, if_neg hne, he, quest_encode_result]
  · intro h1 hne h2
    simp only [replace_quest_texture, h1, if_neg hne, h2]

/-- Witness for the amended C4: empty cache and empty mapping yield the
NoEncodingConfiguration message. -/
theorem quest_param_resolution_amended_witness :
    replace_quest_texture enc_fail "tex" 64 [] [] none =
      ⟨false, "No encoding configuration found", none, none⟩ :=
  (quest_param_resolution_amended enc_fail "tex" 64 [] [] none).2.1 rfl rfl

theorem stage_quest_encoded_staged (encoded : List Nat) (osz : Nat)
    (corr : Option (List Nat)) :
    ∃ staged, (stage_quest_encoded encoded osz corr).stagedTexture = some staged ∧
      staged.length = osz := by
  have hfin :
      (if encoded.length ≠ osz then pad_to_size encoded osz else encoded).length =
        osz := by
    by_cases hne : encoded.length ≠ osz
    · rw [if_pos hne]
      exact pad_to_size_length encoded osz
    · rw [if_neg hne]
      omega
  rcases corr with _ | c
  · simp only [stage_quest_encoded]
    exact ⟨_, rfl, hfin⟩
  · simp only [stage_quest_encoded]
    cases hhex : hex_edit_file_size c
        (if encoded.length ≠ osz then pad_to_size encoded osz else encoded).length with
    | none => exact ⟨_, rfl, hfin⟩
    | some patched => exact ⟨_, rfl, hfin⟩

/-- C9: `pad_to_size` returns exactly the target length — appending zero
bytes when the data is short and truncating when it is long — and
whatever the headset replacement operation stages in the textures folder
has byte length exactly the original file size. -/
theorem pad_exact_and_staged_size :
    (∀ (data : List Nat) (target_size : Nat),
      (pad_to_size data target_size).length = target_size ∧
      (data.length ≤ target_size →
        pad_to_size data target_size =
          data ++ List.replicate (target_size - data.length) 0) ∧
      (target_size ≤ data.length →
        pad_to_size data target_size = data.take target_size)) ∧
    (∀ (enc : EncOracle) (name : String) (original_size : Nat)
      (cache : DecodeCache) (mapping : TextureMapping)
      (corresponding : Option (List Nat)) (staged : List Nat),
      (replace_quest_texture enc name original_size cache mapping
          corresponding).stagedTexture = some staged →
      staged.length = original_size) := by
  constructor
  · intro data t
    refine ⟨pad_to_size_length data t, ?_, ?_⟩
    · intro hle
      unfold pad_to_size
      by_cases h1 : data.length < t
      · rw [if_pos h1]
      · have heq : data.length = t := by omega
        rw [if_neg h1, if_neg (by omega)]
        simp [heq]
    · intro hge
      unfold pad_to_size
      by_cases h2 : t < data.length
      · rw [if_neg (by omega), if_pos h2]
      · have heq : data.length = t := by omega
        rw [if_neg (by omega), if_neg h2, ← heq, List.take_length]
  · intro enc name osz cache mapping corr staged
    unfold replace_quest_texture
    cases hcl : List.lookup name cache with
    | some cfg =>
        cases henc : encode_with_cache enc cache name with
        | some encoded =>
            intro hst
            simp only [henc] at hst
            obtain ⟨s, hs, hl⟩ := stage_quest_encoded_staged encoded osz corr
            rw [hs] at hst
            injection hst with hst
            rw [← hst]
            exact hl
        | none =>
            intro hst
            simp only [henc] at hst
            simp at hst
    | none =>
        by_cases hm : mapping = []
        · rw [if_pos hm]
          intro hst
          simp at hst
        · rw [if_neg hm]
          cases hml : List.lookup name mapping with
          | some e =>
              cases henc2 : encode_texture enc e.width e.height 8 8 (some osz) with
              | some encoded =>
                  intro hst
                  simp only [henc2] at hst
                  obtain ⟨s, hs, hl⟩ := stage_quest_encoded_staged encoded osz corr
                  rw [hs] at hst
                  injection hst with hst
                  rw [← hst]
                  exact hl
              | none =>
                  intro hst
                  simp only [henc2] at hst
                  simp at hst
          | none =>
              intro hst
              simp at hst

/-- Encoder oracle for the C9 witness: always emits the 3 bytes
[1, 2, 3]. -/
def c9_oracle : EncOracle := fun _ _ _ _ => some [1, 2, 3]

/-- Witness for C9: padding [1, 2, 3] to 5 bytes has length 5, and the
staged headset output for a 7-byte original is exactly 7 bytes. -/
theorem pad_exact_and_staged_size_witness :
    (pad_to_size [1, 2, 3] 5).length = 5 ∧
    ([1, 2, 3, 0, 0, 0, 0] : List Nat).length = 7 :=
  ⟨(pad_exact_and_staged_size.1 [1, 2, 3] 5).1,
   pad_exact_and_staged_size.2 c9_oracle "tex" 7 [("tex", ⟨4, 4, 4, 4, 7⟩)] [] none
     [1, 2, 3, 0, 0, 0, 0] (by decide)⟩

/-- C10: on the headset path a missing companion descriptor still stages
the encoded replacement and reports success with the
"no corresponding file" message and no descriptor staged, while the PC
path reports failure ("Corresponding file not found") in the same
situation. -/
theorem quest_missing_descriptor_contrast :
    (∀ (enc : EncOracle) (name : String) (original_size : Nat)
      (cache : DecodeCache) (mapping : TextureMapping) (cfg : CacheCfg)
      (encoded : List Nat),
      cache.lookup name = some cfg →
      encode_texture enc cfg.width cfg.height cfg.block_w cfg.block_h
        (some cfg.original_size) = some encoded →
      ∃ staged,
        replace_quest_texture enc name original_size cache mapping none =
          ⟨true, "Quest texture replaced (no corresponding file)",
           some staged, none⟩) ∧
    (∀ (replacement : List Nat) (replacement_size : Nat),
      replace_pcvr_texture replacement replacement_size none =
        ⟨false, "Corresponding file not found", some replacement, none⟩) := by
  constructor
  · intro enc name osz cache mapping cfg encoded hcfg henc
    refine ⟨if encoded.length ≠ osz then pad_to_size encoded osz else encoded, ?_⟩
    simp only [replace_quest_texture, encode_with_cache, hcfg, henc,
      stage_quest_encoded]
  · intro repl n
    rfl

/-- Encoder oracle for the C10 witness: always emits 20 bytes of value
5. -/
def c10_oracle : EncOracle := fun _ _ _ _ => some (List.replicate 20 5)

/-- Witness for C10 with a cache hit targeting 10 bytes. -/
theorem quest_missing_descriptor_contrast_witness :
    (∃ staged,
      replace_quest_texture c10_oracle "t" 10 [("t", ⟨8, 8, 8, 8, 10⟩)] [] none =
        ⟨true, "Quest texture replaced (no corresponding file)",
         some staged, none⟩) ∧
    replace_pcvr_texture [9] 3 none =
      ⟨false, "Corresponding file not found", some [9], none⟩ :=
  ⟨quest_missing_descriptor_contrast.1 c10_oracle "t" 10 [("t", ⟨8, 8, 8, 8, 10⟩)] []
     ⟨8, 8, 8, 8, 10⟩ (List.replicate 10 5) rfl (by decide),
   quest_missing_descriptor_contrast.2 [9] 3⟩
